import Mathlib

/-!
Verification of the OAuth2 authorization-code flow of the autolink-ai
repository.

Two source files are embedded:

* `src/app/api/linkedin/callback/route.ts` — the callback handler `GET`.
  The handler is embedded as a pure function from the incoming request and
  a `World` (the observable behaviour of the black-box collaborators: the
  token endpoint, the profile endpoint, the ambient-session user lookup and
  the profile store) to a `HandlerResult` holding the redirect it returns
  and a trace of its effects (token-endpoint calls, store writes, warnings,
  logged errors).  Every JavaScript point that can throw inside the `try`
  block is routed to the embedding of the `catch` branch, exactly as the
  source routes it.

* `src/lib/linkedin.ts` — the configuration object `LINKEDIN_CONFIG` and
  the authorization-URL builder `generateLinkedInAuthUrl`.  The call to
  `Math.random().toString(36)` is modelled by passing the resulting numeric
  string as an explicit argument, since the draw is the only
  non-determinism of the builder.

Conventions: JavaScript `null`/`undefined` values coming from
`searchParams.get` or from absent JSON members are modelled by `Option`;
thrown errors by `Except String`; `Date` timestamps by their epoch value in
milliseconds (an `Int`); `Date.prototype.toISOString` is modelled as the
injective image of that timestamp, throwing on an invalid date exactly as
in JavaScript.
-/

namespace Autolink

/-- JavaScript truthiness of a `searchParams.get` result: `null` and the
empty string are falsy, every other string is truthy. -/
def jsTruthy : Option String → Bool
  | none => false
  | some s => s ≠ ""

/-- Template-literal interpolation of a possibly-`null` value:
`` `${x}` `` prints the string `"null"` when `x` is `null`. -/
def jsTemplate : Option String → String
  | none => "null"
  | some s => s

/-- JavaScript `x || d` on a possibly-absent string: `undefined`, `null`
and `""` fall through to the default. -/
def jsOrDefault : Option String → String → String
  | none, d => d
  | some s, d => if s = "" then d else s

/-- UTF-8 encoding of one code point, as byte values. -/
def utf8Bytes (c : Char) : List Nat :=
  let n := c.toNat
  if n < 0x80 then [n]
  else if n < 0x800 then [0xC0 + n / 0x40, 0x80 + n % 0x40]
  else if n < 0x10000 then
    [0xE0 + n / 0x1000, 0x80 + (n / 0x40) % 0x40, 0x80 + n % 0x40]
  else
    [0xF0 + n / 0x40000, 0x80 + (n / 0x1000) % 0x40,
     0x80 + (n / 0x40) % 0x40, 0x80 + n % 0x40]

/-- Upper-case hexadecimal digit for a value below 16. -/
def hexDigitUpper (n : Nat) : Char :=
  if n < 10 then Char.ofNat (48 + n) else Char.ofNat (55 + n)

/-- Percent-escape of one byte, e.g. `37 ↦ "%25"`. -/
def percentByte (b : Nat) : List Char :=
  ['%', hexDigitUpper (b / 16), hexDigitUpper (b % 16)]

/-- The characters `encodeURIComponent` leaves unescaped. -/
def uriUnreserved (c : Char) : Bool :=
  c.isAlpha || c.isDigit ||
    c = '-' || c = '_' || c = '.' || c = '!' || c = '~' || c = '*' ||
    c = '\'' || c = '(' || c = ')'

/-- JavaScript `encodeURIComponent`: every character outside the
unreserved set is replaced by the percent-escapes of its UTF-8 bytes. -/
def encodeURIComponent (s : String) : String :=
  ⟨s.data.flatMap fun c =>
    if uriUnreserved c then [c] else (utf8Bytes c).flatMap percentByte⟩

/-! ## Embedding of `src/app/api/linkedin/callback/route.ts` -/

/-- The data the handler reads from the incoming request:
`const { searchParams, origin } = new URL(request.url)` followed by the
four `searchParams.get` calls. -/
structure CallbackRequest where
  origin : String
  code : Option String
  state : Option String
  error : Option String
  error_description : Option String
deriving DecidableEq

/-- Parsed JSON body of the token-endpoint response
(`tokenData`), together with the HTTP success flag `tokenResponse.ok`.
Absent JSON members are `none`. -/
structure TokenData where
  ok : Bool
  access_token : Option String
  expires_in : Option Int
  error_description : Option String
deriving DecidableEq

/-- Parsed JSON body of the profile-endpoint response (`profileData`);
only the `sub` member is read by the handler. -/
structure ProfileData where
  sub : Option String
deriving DecidableEq

/-- The update payload the handler sends to
`supabase.from("profiles").update(...)`.  `linkedin_token_expires_at`
holds the epoch milliseconds encoded by `expiresAt.toISOString()`. -/
structure UpdatePayload where
  linkedin_token : Option String
  linkedin_profile_id : Option String
  linkedin_connected : Bool
  linkedin_token_expires_at : Int
deriving DecidableEq

/-- The form body the handler posts to the token endpoint. -/
structure TokenRequest where
  grant_type : String
  code : String
  client_id : String
  client_secret : String
  redirect_uri : String
deriving DecidableEq

/-- The observable behaviour of the collaborators during one invocation:

* `tokenResult` — `fetch` of the token endpoint followed by `.json()`;
  `Except.error e` models a rejected promise (network failure or
  unparsable body) whose message is `e`.
* `profileResult` — likewise for the profile endpoint.
* `nowMs` — the epoch milliseconds of `new Date()`.
* `currentUser` — `supabase.auth.getUser()`: a thrown error, or the
  optional id of the session user.
* `dbResult` — the awaited update builder: a thrown error, or the
  returned `{ error }` member (`some msg` models a store error whose
  `.message` is `msg`). -/
structure World where
  clientId : String
  clientSecret : String
  tokenResult : Except String TokenData
  profileResult : Except String ProfileData
  nowMs : Int
  currentUser : Except String (Option String)
  dbResult : Except String (Option String)

/-- The redirect the handler returns, together with the trace of its
observable effects. -/
structure HandlerResult where
  redirect : String
  tokenCalls : List TokenRequest
  profileCalled : Bool
  writes : List (String × UpdatePayload)
  warnings : List String
  errorsLogged : List String
deriving DecidableEq

/-- The redirect built by the `catch` branch of the handler. -/
def catchRedirect (origin msg : String) : String :=
  origin ++ "/#/app/settings?error=exchange_failed&msg=" ++
    encodeURIComponent msg

/-- The warning printed when no session user is found. -/
def noSessionWarning : String :=
  "Callback received but no active session found. Ensure RLS allows the update or handle via state mapping."

/-- Embedding of the exported `GET` handler of
`src/app/api/linkedin/callback/route.ts`, line by line:

1. `if (error)` — immediate error redirect.
2. `if (!code)` — `missing_code` redirect.
3. token exchange: the posted form carries
   `redirect_uri = origin + "/api/linkedin/callback"`; a rejected fetch or
   a non-`ok` response throws into the catch branch.
4. profile fetch: `profileData.sub` is read without any presence check.
5. `expiresAt` is `now + expires_in` seconds; when `expires_in` is absent
   the date is invalid and `toISOString()` throws — but only in the
   `if (user)` branch, where the payload is built.
6. the update is sent for `user.id`; a store error is thrown.
7. success redirect, or the catch redirect with the thrown message. -/
def GET (req : CallbackRequest) (w : World) : HandlerResult :=
  if jsTruthy req.error then
    { redirect := req.origin ++ "/#/app/settings?error=" ++
        (req.error.getD "") ++ "&msg=" ++ jsTemplate req.error_description,
      tokenCalls := [], profileCalled := false, writes := [],
      warnings := [], errorsLogged := [] }
  else if ¬ jsTruthy req.code then
    { redirect := req.origin ++ "/#/app/settings?error=missing_code",
      tokenCalls := [], profileCalled := false, writes := [],
      warnings := [], errorsLogged := [] }
  else
    let tokenReq : TokenRequest :=
      { grant_type := "authorization_code", code := req.code.getD "",
        client_id := w.clientId, client_secret := w.clientSecret,
        redirect_uri := req.origin ++ "/api/linkedin/callback" }
    match w.tokenResult with
    | .error e =>
        { redirect := catchRedirect req.origin e, tokenCalls := [tokenReq],
          profileCalled := false, writes := [], warnings := [],
          errorsLogged := [e] }
    | .ok td =>
      if ¬ td.ok then
        let msg := jsOrDefault td.error_description
          "LinkedIn token exchange failed"
        { redirect := catchRedirect req.origin msg,
          tokenCalls := [tokenReq], profileCalled := false, writes := [],
          warnings := [], errorsLogged := [msg] }
      else
        match w.profileResult with
        | .error e =>
            { redirect := catchRedirect req.origin e,
              tokenCalls := [tokenReq], profileCalled := true,
              writes := [], warnings := [], errorsLogged := [e] }
        | .ok pd =>
          match w.currentUser with
          | .error e =>
              { redirect := catchRedirect req.origin e,
                tokenCalls := [tokenReq], profileCalled := true,
                writes := [], warnings := [], errorsLogged := [e] }
          | .ok none =>
              { redirect := req.origin ++ "/#/app/settings?success=true",
                tokenCalls := [tokenReq], profileCalled := true,
                writes := [], warnings := [noSessionWarning],
                errorsLogged := [] }
          | .ok (some uid) =>
            match td.expires_in with
            | none =>
                { redirect := catchRedirect req.origin "Invalid time value",
                  tokenCalls := [tokenReq], profileCalled := true,
                  writes := [], warnings := [],
                  errorsLogged := ["Invalid time value"] }
            | some s =>
              let payload : UpdatePayload :=
                { linkedin_token := td.access_token,
                  linkedin_profile_id := pd.sub,
                  linkedin_connected := true,
                  linkedin_token_expires_at := w.nowMs + s * 1000 }
              match w.dbResult with
              | .error e =>
                  { redirect := catchRedirect req.origin e,
                    tokenCalls := [tokenReq], profileCalled := true,
                    writes := [(uid, payload)], warnings := [],
                    errorsLogged := [e] }
              | .ok (some dbErr) =>
                  { redirect := catchRedirect req.origin dbErr,
                    tokenCalls := [tokenReq], profileCalled := true,
                    writes := [(uid, payload)], warnings := [],
                    errorsLogged := [dbErr] }
              | .ok none =>
                  { redirect :=
                      req.origin ++ "/#/app/settings?success=true",
                    tokenCalls := [tokenReq], profileCalled := true,
                    writes := [(uid, payload)], warnings := [],
                    errorsLogged := [] }

/-! ## Embedding of the `profiles` store semantics

The store itself is an external collaborator; what is embedded here is the
meaning of the one call the handler makes against it,
`supabase.from("profiles").update(payload).eq("user_id", uid)`, so that
frame properties of that call can be stated. -/

/-- One row of the `profiles` table.  The four `linkedin_*` columns are
the ones named in the update payload of the handler; `otherColumns`
stands for every other column of the row. -/
structure ProfileRow (α : Type) where
  user_id : String
  linkedin_token : Option String
  linkedin_profile_id : Option String
  linkedin_connected : Bool
  linkedin_token_expires_at : Option Int
  otherColumns : α
deriving DecidableEq

/-- Effect of the update payload on one matching row.  A member whose
value is `undefined` is dropped when the payload is serialized, so an
absent `Option` leaves the stored column unchanged. -/
def applyPayload (p : UpdatePayload) (r : ProfileRow α) : ProfileRow α :=
  { r with
    linkedin_token := match p.linkedin_token with
      | some t => some t
      | none => r.linkedin_token
    linkedin_profile_id := match p.linkedin_profile_id with
      | some i => some i
      | none => r.linkedin_profile_id
    linkedin_connected := p.linkedin_connected
    linkedin_token_expires_at := some p.linkedin_token_expires_at }

/-- `update(payload).eq("user_id", uid)` on a table: the payload is
applied to exactly the rows whose `user_id` is `uid`. -/
def applyProfileUpdate (tbl : List (ProfileRow α)) (uid : String)
    (p : UpdatePayload) : List (ProfileRow α) :=
  tbl.map fun r => if r.user_id = uid then applyPayload p r else r

/-! ## Embedding of `src/lib/linkedin.ts` (configuration part) -/

/-- Shape of the exported `LINKEDIN_CONFIG` object. -/
structure LinkedInConfig where
  clientId : String
  redirectUri : String
  scopes : List String
deriving DecidableEq

/-- The exported `LINKEDIN_CONFIG` constant of `src/lib/linkedin.ts`. -/
def LINKEDIN_CONFIG : LinkedInConfig :=
  { clientId := "86j7ddjv9w7b8m"
    redirectUri := "http://localhost:3000/api/linkedin/callback"
    scopes := ["openid", "profile", "email", "w_member_social"] }

/-! ## Embedding of `src/lib/linkedin.ts` (authorization-URL builder)

`generateLinkedInAuthUrl` serializes `\x7b userId, nonce \x7d` to JSON,
encodes it with `btoa`, and appends it as the `state` query parameter of
the authorization URL.  The nonce is
`Math.random().toString(36).substring(2, 15)`; the numeric string returned
by `toString(36)` is passed as an explicit argument (`"0"` when the draw
is exactly `0`, otherwise `"0."` followed by base-36 fraction digits). -/

/-- JavaScript `String.prototype.substring`: clamps both indices to the
string length and swaps them when out of order. -/
def jsSubstring (s : String) (a b : Nat) : String :=
  let len := s.length
  let lo := min (min a len) (min b len)
  let hi := max (min a len) (min b len)
  ⟨(s.data.drop lo).take (hi - lo)⟩

/-- Lower-case hexadecimal digit for a value below 16. -/
def hexDigitLower (n : Nat) : Char :=
  if n < 10 then Char.ofNat (48 + n) else Char.ofNat (87 + n)

/-- `JSON.stringify` escape of a control character (below `0x20`). -/
def controlEscape (c : Char) : List Char :=
  if c = '\x08' then ['\\', 'b']
  else if c = '\x0c' then ['\\', 'f']
  else if c = '\n' then ['\\', 'n']
  else if c = '\r' then ['\\', 'r']
  else if c = '\t' then ['\\', 't']
  else '\\' :: 'u' :: '0' :: '0' ::
    [hexDigitLower (c.toNat / 16), hexDigitLower (c.toNat % 16)]

/-- `JSON.stringify` escaping of one character inside a string literal. -/
def jsonEscapeChar (c : Char) : List Char :=
  if c = '"' then ['\\', '"']
  else if c = '\\' then ['\\', '\\']
  else if c.toNat < 0x20 then controlEscape c
  else [c]

/-- `JSON.stringify` of a string value: quote and escape. -/
def jsonQuote (s : String) : String :=
  ⟨'"' :: (s.data.flatMap jsonEscapeChar ++ ['"'])⟩

/-- `JSON.stringify(\x7b userId, nonce \x7d)`: members in insertion
order, no whitespace. -/
def statePayloadJson (userId nonce : String) : String :=
  "\x7b\"userId\":" ++ jsonQuote userId ++ ",\"nonce\":" ++ jsonQuote nonce
    ++ "\x7d"

/-- Value of base-64 digit `n < 64` in the standard alphabet. -/
def b64c (n : Nat) : Char :=
  if n < 26 then Char.ofNat (65 + n)
  else if n < 52 then Char.ofNat (97 + (n - 26))
  else if n < 62 then Char.ofNat (48 + (n - 52))
  else if n = 62 then '+'
  else '/'

/-- Inverse of `b64c`: the value of a base-64 digit character. -/
def b64v (c : Char) : Option Nat :=
  if 'A' ≤ c ∧ c ≤ 'Z' then some (c.toNat - 65)
  else if 'a' ≤ c ∧ c ≤ 'z' then some (c.toNat - 97 + 26)
  else if '0' ≤ c ∧ c ≤ '9' then some (c.toNat - 48 + 52)
  else if c = '+' then some 62
  else if c = '/' then some 63
  else none

/-- Standard base-64 of a byte list, with `=` padding. -/
def encodeB64 : List Nat → List Char
  | [] => []
  | [a] => [b64c (a / 4), b64c (a % 4 * 16), '=', '=']
  | [a, b] => [b64c (a / 4), b64c (a % 4 * 16 + b / 16), b64c (b % 16 * 4), '=']
  | a :: b :: c :: rest =>
      b64c (a / 4) :: b64c (a % 4 * 16 + b / 16) ::
        b64c (b % 16 * 4 + c / 64) :: b64c (c % 64) :: encodeB64 rest

/-- Base-64 decoding back to bytes; `none` on malformed input. -/
def decodeB64 : List Char → Option (List Nat)
  | [] => some []
  | c1 :: c2 :: c3 :: c4 :: rest =>
      match b64v c1, b64v c2 with
      | some s1, some s2 =>
          if c3 = '=' then
            if c4 = '=' then
              if rest = [] then some [s1 * 4 + s2 / 16] else none
            else none
          else
            match b64v c3 with
            | some s3 =>
                if c4 = '=' then
                  if rest = [] then
                    some [s1 * 4 + s2 / 16, s2 % 16 * 16 + s3 / 4]
                  else none
                else
                  match b64v c4, decodeB64 rest with
                  | some s4, some tail =>
                      some ((s1 * 4 + s2 / 16) :: (s2 % 16 * 16 + s3 / 4) ::
                            (s3 % 4 * 64 + s4) :: tail)
                  | _, _ => none
            | none => none
      | _, _ => none
  | _ => none

/-- JavaScript `btoa`: base-64 of the code units of the string; throws
`InvalidCharacterError` on any code point above `0xFF`. -/
def btoa (s : String) : Except String String :=
  if s.data.all (fun c => c.toNat ≤ 0xFF) then
    .ok ⟨encodeB64 (s.data.map Char.toNat)⟩
  else .error "InvalidCharacterError"

/-- Inverse of `btoa`: base-64 decoding to a string of byte-valued
characters. -/
def atob (s : String) : Option String :=
  (decodeB64 s.data).map fun bs => ⟨bs.map Char.ofNat⟩

/-- The characters the `application/x-www-form-urlencoded` serializer
leaves unescaped. -/
def formUnreserved (c : Char) : Bool :=
  c.isAlpha || c.isDigit || c = '*' || c = '-' || c = '.' || c = '_'

/-- One character of the `application/x-www-form-urlencoded` serializer
used by `URL.toString()` for query parameters: space becomes `+`, the
unreserved set stays, everything else is percent-escaped (per UTF-8
byte, upper-case hex). -/
def formEncodeChar (c : Char) : List Char :=
  if c = ' ' then ['+']
  else if formUnreserved c then [c]
  else (utf8Bytes c).flatMap percentByte

/-- `application/x-www-form-urlencoded` serialization of a string. -/
def formEncode (s : String) : String :=
  ⟨s.data.flatMap formEncodeChar⟩

/-- Value of a hexadecimal digit character. -/
def hexVal (c : Char) : Option Nat :=
  if '0' ≤ c ∧ c ≤ '9' then some (c.toNat - 48)
  else if 'A' ≤ c ∧ c ≤ 'F' then some (c.toNat - 55)
  else if 'a' ≤ c ∧ c ≤ 'f' then some (c.toNat - 87)
  else none

/-- Decoder for the `application/x-www-form-urlencoded` ASCII fragment:
`+` becomes space, `%XX` a byte (rejected above `0x7F` — every value this
development decodes is ASCII), other characters stand for themselves. -/
def formDecodeList : List Char → Option (List Char)
  | [] => some []
  | c :: rest =>
      if c = '+' then (formDecodeList rest).map (' ' :: ·)
      else if c = '%' then
        match rest with
        | h1 :: h2 :: rest2 =>
            match hexVal h1, hexVal h2 with
            | some v1, some v2 =>
                if v1 * 16 + v2 ≤ 0x7F then
                  (formDecodeList rest2).map (Char.ofNat (v1 * 16 + v2) :: ·)
                else none
            | _, _ => none
        | _ => none
      else (formDecodeList rest).map (c :: ·)

/-- Join character lists with a separator character. -/
def joinSep (sep : Char) : List (List Char) → List Char
  | [] => []
  | [p] => p
  | p :: q :: rest => p ++ sep :: joinSep sep (q :: rest)

/-- Query-string serialization of key-value pairs, as produced by
`URL.toString()` after `searchParams.append`. -/
def serializeQuery (ps : List (String × String)) : List Char :=
  joinSep '&'
    (ps.map fun kv => (formEncode kv.1).data ++ '=' :: (formEncode kv.2).data)

/-- Embedding of `generateLinkedInAuthUrl` of `src/lib/linkedin.ts`.
`randStr` is the string returned by `Math.random().toString(36)`. -/
def generateLinkedInAuthUrl (userId : String) (randStr : String) :
    Except String String :=
  match btoa (statePayloadJson userId (jsSubstring randStr 2 15)) with
  | .error e => .error e
  | .ok state =>
      .ok ("https://www.linkedin.com/oauth/v2/authorization?" ++
        String.mk (serializeQuery
          [("response_type", "code"),
           ("client_id", LINKEDIN_CONFIG.clientId),
           ("redirect_uri", LINKEDIN_CONFIG.redirectUri),
           ("state", state),
           ("scope", String.intercalate " " LINKEDIN_CONFIG.scopes)]))

/-! ## Decoder for the state parameter

The spec describes the state encoding as reversible; the following
functions are that inverse direction (query-parameter extraction,
form-urlencoded decoding, base-64 decoding, JSON parsing), written for
this development — the source only encodes. -/

/-- The suffix after the first occurrence of `c`, if any. -/
def afterChar (c : Char) : List Char → Option (List Char)
  | [] => none
  | x :: xs => if x = c then some xs else afterChar c xs

/-- Split a character list on a separator (`n+1` parts for `n`
separators). -/
def splitOnChar (sep : Char) : List Char → List (List Char)
  | [] => [[]]
  | c :: rest =>
      match splitOnChar sep rest with
      | [] => [[]]
      | h :: t => if c = sep then [] :: h :: t else (c :: h) :: t

/-- Split at the first occurrence of a separator; the whole list and an
empty remainder when absent. -/
def splitFirstChar (sep : Char) : List Char → List Char × List Char
  | [] => ([], [])
  | c :: rest =>
      if c = sep then ([], rest)
      else
        let p := splitFirstChar sep rest
        (c :: p.1, p.2)

/-- Key lookup within one `key=value` query segment. -/
def lookupParam (key : String) (seg : List Char) : Option (List Char) :=
  let p := splitFirstChar '=' seg
  if p.1 = key.data then some p.2 else none

/-- The raw (still form-encoded) value of a query parameter of a URL. -/
def getParam (url : String) (key : String) : Option (List Char) :=
  match afterChar '?' url.data with
  | none => none
  | some q => (splitOnChar '&' q).findSome? (lookupParam key)

/-- Consume an expected literal from the front of the input. -/
def expectLiteral : List Char → List Char → Option (List Char)
  | [], l => some l
  | _ :: _, [] => none
  | p :: ps, c :: cs => if c = p then expectLiteral ps cs else none

/-- Map a JSON escape character back to the character it denotes (the
simple escapes; `\u` forms are not needed for the values decoded here). -/
def jsonUnescapeChar (c : Char) : Option Char :=
  if c = '"' then some '"'
  else if c = '\\' then some '\\'
  else if c = '/' then some '/'
  else if c = 'b' then some '\x08'
  else if c = 'f' then some '\x0c'
  else if c = 'n' then some '\n'
  else if c = 'r' then some '\r'
  else if c = 't' then some '\t'
  else none

/-- Parse a JSON string body up to its closing quote; returns the decoded
content and the remainder after the quote. -/
def parseJsonString : List Char → Option (List Char × List Char)
  | [] => none
  | c :: rest =>
      if c = '"' then some ([], rest)
      else if c = '\\' then
        match rest with
        | [] => none
        | e :: rest2 =>
            match jsonUnescapeChar e with
            | some u =>
                match parseJsonString rest2 with
                | some p => some (u :: p.1, p.2)
                | none => none
            | none => none
      else
        match parseJsonString rest with
        | some p => some (c :: p.1, p.2)
        | none => none

/-- Parse the exact payload shape produced by the builder:
`\x7b"userId":<string>,"nonce":<string>\x7d`. -/
def parseStatePayload (l : List Char) : Option (String × String) :=
  match expectLiteral "\x7b\"userId\":\"".data l with
  | none => none
  | some r1 =>
      match parseJsonString r1 with
      | none => none
      | some p1 =>
          match expectLiteral ",\"nonce\":\"".data p1.2 with
          | none => none
          | some r2 =>
              match parseJsonString r2 with
              | none => none
              | some p2 =>
                  if p2.2 = "\x7d".data then some (⟨p1.1⟩, ⟨p2.1⟩)
                  else none

/-- Full decoding of the `state` parameter of an authorization URL:
extract the parameter, undo the form encoding, undo `btoa`, parse the
JSON payload. -/
def decodeStateParam (url : String) : Option (String × String) :=
  match getParam url "state" with
  | none => none
  | some enc =>
      match formDecodeList enc with
      | none => none
      | some st =>
          match atob ⟨st⟩ with
          | none => none
          | some payload => parseStatePayload payload.data

/-- The characters for which the round-trip theorems are stated: in the
byte range accepted by `btoa`, printable (no JSON escaping), and not a
quote or backslash. -/
def charSafe (c : Char) : Prop :=
  0x20 ≤ c.toNat ∧ c.toNat ≤ 0xFF ∧ c ≠ '"' ∧ c ≠ '\\'

instance (c : Char) : Decidable (charSafe c) := by
  unfold charSafe; infer_instance

/-! ## Concrete requests and worlds used to instantiate the theorems -/

/-- A callback request carrying a valid code and no provider error. -/
def sampleRequest : CallbackRequest :=
  { origin := "http://localhost:3000", code := some "authcode123",
    state := some "st", error := none, error_description := none }

/-- The same request arriving at a different origin. -/
def foreignOriginRequest : CallbackRequest :=
  { origin := "https://example.com", code := some "authcode123",
    state := some "st", error := none, error_description := none }

/-- A request where the provider reported `access_denied`. -/
def deniedRequest : CallbackRequest :=
  { origin := "http://localhost:3000", code := none, state := some "st",
    error := some "access_denied",
    error_description := some "user_cancelled_login" }

/-- A world where every collaborator behaves: the token endpoint returns
a token valid for 3600 seconds, the profile endpoint returns a subject,
a session user resolves and the store accepts the write. -/
def happyWorld : World :=
  { clientId := "86j7ddjv9w7b8m", clientSecret := "s3cr3t",
    tokenResult := .ok
      { ok := true, access_token := some "T",
        expires_in := some 3600, error_description := none },
    profileResult := .ok { sub := some "ext-123" },
    nowMs := 1700000000000,
    currentUser := .ok (some "user-1"), dbResult := .ok none }

/-- As `happyWorld`, but the token endpoint answers with a success status
whose body carries no `access_token`. -/
def missingTokenWorld : World :=
  { happyWorld with
    tokenResult := .ok
      { ok := true, access_token := none,
        expires_in := some 3600, error_description := none } }

/-- As `happyWorld`, but the token endpoint answers with a non-success
status and an error description. -/
def failedExchangeWorld : World :=
  { happyWorld with
    tokenResult := .ok
      { ok := false, access_token := none,
        expires_in := none,
        error_description := some "invalid_grant" } }

/-- As `happyWorld`, but the body of the profile response has no `sub`
member. -/
def missingSubWorld : World :=
  { happyWorld with profileResult := .ok { sub := none } }

/-- As `happyWorld`, but the profile response body is unparsable: the
`.json()` promise rejects. -/
def malformedProfileWorld : World :=
  { happyWorld with profileResult := .error "Unexpected end of JSON input" }

/-- As `happyWorld`, but no session user resolves. -/
def noUserWorld : World :=
  { happyWorld with currentUser := .ok none }

/-- The update payload produced by the handler in `happyWorld`. -/
def samplePayload : UpdatePayload :=
  { linkedin_token := some "T", linkedin_profile_id := some "ext-123",
    linkedin_connected := true, linkedin_token_expires_at := 1700003600000 }

/-- A two-user `profiles` table used to instantiate the frame theorem;
`otherColumns` is a `String` standing for the remaining columns. -/
def sampleTable : List (ProfileRow String) :=
  [{ user_id := "user-1", linkedin_token := none,
     linkedin_profile_id := none, linkedin_connected := false,
     linkedin_token_expires_at := none, otherColumns := "alice" },
   { user_id := "user-2", linkedin_token := some "old",
     linkedin_profile_id := some "old-id", linkedin_connected := true,
     linkedin_token_expires_at := some 5, otherColumns := "bob" }]

/-! ## Helper lemmas about string concatenation -/

theorem string_append_assoc (a b c : String) :
    a ++ b ++ c = a ++ (b ++ c) := by
  rcases a with ⟨la⟩; rcases b with ⟨lb⟩; rcases c with ⟨lc⟩
  simp [String.congr_append, List.append_assoc]

theorem settings_split (o t q : String) (h : t = "/#/app/settings?" ++ q) :
    o ++ t = o ++ ("/#/app/settings?" ++ q) := by rw [h]

theorem settings_error_msg (o e d : String) :
    o ++ "/#/app/settings?error=" ++ e ++ "&msg=" ++ d
      = o ++ ("/#/app/settings?" ++ ("error=" ++ (e ++ ("&msg=" ++ d)))) := by
  simp only [string_append_assoc]
  congr 1

theorem catch_settings (o m : String) :
    catchRedirect o m
      = o ++ ("/#/app/settings?" ++
          ("error=exchange_failed&msg=" ++ encodeURIComponent m)) := by
  unfold catchRedirect
  simp only [string_append_assoc]
  congr 1

/-! ## Claims -/

/-- C9: for every callback request and every behaviour of the token
endpoint, profile endpoint, session lookup and store — including thrown
errors at each of those points — the handler terminates with a redirect to
the settings page; no failure escapes to the caller. -/
theorem C9_always_redirects (req : CallbackRequest) (w : World) :
    ∃ q, (GET req w).redirect = req.origin ++ ("/#/app/settings?" ++ q) := by
  unfold GET
  repeat' split
  all_goals
    first
      | exact ⟨_, settings_error_msg _ _ _⟩
      | exact ⟨_, settings_split _ _ "error=missing_code" (by decide)⟩
      | exact ⟨_, settings_split _ _ "success=true" (by decide)⟩
      | exact ⟨_, catch_settings _ _⟩

theorem string_append_right_cancel (a b s : String) (h : a ++ s = b ++ s) :
    a = b := by
  rcases a with ⟨la⟩; rcases b with ⟨lb⟩; rcases s with ⟨ls⟩
  simp only [String.congr_append] at h
  exact congrArg String.mk
    (List.append_cancel_right (congrArg String.data h))

/-- Trace inversion: any write the handler performs happens for the
resolved session user, is marked connected, copies the token and subject
verbatim from the two provider responses, and carries the expiry computed
from `expires_in` at the exchange time. -/
theorem GET_writes_inversion (req : CallbackRequest) (w : World)
    (uid : String) (p : UpdatePayload)
    (hmem : (uid, p) ∈ (GET req w).writes) :
    w.currentUser = .ok (some uid)
      ∧ p.linkedin_connected = true
      ∧ ∃ td pd n, w.tokenResult = .ok td ∧ w.profileResult = .ok pd
          ∧ td.ok = true ∧ td.expires_in = some n
          ∧ p.linkedin_token = td.access_token
          ∧ p.linkedin_profile_id = pd.sub
          ∧ p.linkedin_token_expires_at = w.nowMs + n * 1000 := by
  obtain ⟨ci, cs, tr, pr, now, cu, db⟩ := w
  unfold GET at hmem
  by_cases he : jsTruthy req.error = true
  · simp [he] at hmem
  · by_cases hc : jsTruthy req.code = true
    · rcases tr with e | ⟨okb, atok, exp, ed⟩
      · simp [he, hc] at hmem
      · cases okb
        · simp [he, hc] at hmem
        · rcases pr with e | ⟨subv⟩
          · simp [he, hc] at hmem
          · rcases cu with e | ou
            · simp [he, hc] at hmem
            · rcases ou with _ | uid'
              · simp [he, hc] at hmem
              · rcases exp with _ | n
                · simp [he, hc] at hmem
                · rcases db with e | od
                  · simp [he, hc] at hmem
                    obtain ⟨rfl, rfl⟩ := hmem
                    exact ⟨rfl, rfl, _, _, n,
                      rfl, rfl, rfl, rfl, rfl, rfl, rfl⟩
                  · rcases od with _ | msg
                    · simp [he, hc] at hmem
                      obtain ⟨rfl, rfl⟩ := hmem
                      exact ⟨rfl, rfl, _, _, n,
                        rfl, rfl, rfl, rfl, rfl, rfl, rfl⟩
                    · simp [he, hc] at hmem
                      obtain ⟨rfl, rfl⟩ := hmem
                      exact ⟨rfl, rfl, _, _, n,
                        rfl, rfl, rfl, rfl, rfl, rfl, rfl⟩
    · simp [he, hc] at hmem

/-- Trace inversion: every token-endpoint call the handler makes carries
`redirect_uri = origin + "/api/linkedin/callback"`, derived from the
incoming request. -/
theorem GET_tokenCalls_inversion (req : CallbackRequest) (w : World)
    (tr : TokenRequest) (hmem : tr ∈ (GET req w).tokenCalls) :
    tr.redirect_uri = req.origin ++ "/api/linkedin/callback" := by
  unfold GET at hmem
  repeat' split at hmem
  all_goals simp only [List.mem_singleton, List.not_mem_nil] at hmem
  all_goals (subst hmem; rfl)

/-- The update touches only matching rows, and preserves `user_id` and
all non-linkedin columns even on matching rows. -/
theorem applyProfileUpdate_frame {α : Type} (tbl : List (ProfileRow α))
    (uid : String) (p : UpdatePayload) :
    List.Forall₂ (fun r r' : ProfileRow α =>
        r'.user_id = r.user_id ∧ r'.otherColumns = r.otherColumns
          ∧ (r.user_id ≠ uid → r' = r))
      tbl (applyProfileUpdate tbl uid p) := by
  induction tbl with
  | nil => exact List.Forall₂.nil
  | cons r rest ih =>
      refine List.Forall₂.cons ?_ ih
      by_cases h : r.user_id = uid
      · simp [applyProfileUpdate, applyPayload, h]
      · simp [applyProfileUpdate, h]

/-- C1: with a valid code and no provider error, a success token response
carrying an access token and an expiry, a profile response carrying a
subject, a resolvable session user and a store accepting the write, the
handler writes exactly one record for that user — the token, the subject,
`connected = true` and an expiry equal to the exchange time plus
`expires_in` seconds — and redirects with `success=true`. -/
theorem C1_success_flow (req : CallbackRequest) (w : World)
    (td : TokenData) (pd : ProfileData) (t subId uid : String) (n : Int)
    (herr : jsTruthy req.error = false) (hcode : jsTruthy req.code = true)
    (htok : w.tokenResult = .ok td) (hok : td.ok = true)
    (hat : td.access_token = some t) (hexp : td.expires_in = some n)
    (hprof : w.profileResult = .ok pd) (hsub : pd.sub = some subId)
    (huser : w.currentUser = .ok (some uid))
    (hdb : w.dbResult = .ok none) :
    (GET req w).writes
        = [(uid, { linkedin_token := some t,
                   linkedin_profile_id := some subId,
                   linkedin_connected := true,
                   linkedin_token_expires_at := w.nowMs + n * 1000 })]
      ∧ (GET req w).redirect
          = req.origin ++ "/#/app/settings?success=true" := by
  unfold GET
  simp [herr, hcode, htok, hok, hat, hexp, hprof, hsub, huser, hdb]

theorem C1_witness :
    (GET sampleRequest happyWorld).writes
        = [("user-1", { linkedin_token := some "T",
                        linkedin_profile_id := some "ext-123",
                        linkedin_connected := true,
                        linkedin_token_expires_at :=
                          happyWorld.nowMs + 3600 * 1000 })]
      ∧ (GET sampleRequest happyWorld).redirect
          = sampleRequest.origin ++ "/#/app/settings?success=true" :=
  C1_success_flow sampleRequest happyWorld
    { ok := true, access_token := some "T", expires_in := some 3600,
      error_description := none }
    { sub := some "ext-123" } "T" "ext-123" "user-1" 3600
    rfl rfl rfl rfl rfl rfl rfl rfl rfl rfl

/-- C2 (amended): every record the handler writes is marked
`connected = true`, copies `external_token` and `external_profile_id`
verbatim from the provider responses (hence populated whenever those
responses supply them), and its expiry always equals the exchange time
plus the received `expires_in`. -/
theorem C2_written_record_shape (req : CallbackRequest) (w : World)
    (uid : String) (p : UpdatePayload)
    (hmem : (uid, p) ∈ (GET req w).writes) :
    p.linkedin_connected = true
      ∧ ∃ td pd n, w.tokenResult = .ok td ∧ w.profileResult = .ok pd
          ∧ td.expires_in = some n
          ∧ p.linkedin_token = td.access_token
          ∧ p.linkedin_profile_id = pd.sub
          ∧ p.linkedin_token_expires_at = w.nowMs + n * 1000 := by
  obtain ⟨-, hconn, td, pd, n, h1, h2, -, h4, h5, h6, h7⟩ :=
    GET_writes_inversion req w uid p hmem
  exact ⟨hconn, td, pd, n, h1, h2, h4, h5, h6, h7⟩

theorem C2_witness :
    samplePayload.linkedin_connected = true
      ∧ ∃ td pd n, happyWorld.tokenResult = .ok td
          ∧ happyWorld.profileResult = .ok pd
          ∧ td.expires_in = some n
          ∧ samplePayload.linkedin_token = td.access_token
          ∧ samplePayload.linkedin_profile_id = pd.sub
          ∧ samplePayload.linkedin_token_expires_at
              = happyWorld.nowMs + n * 1000 :=
  C2_written_record_shape sampleRequest happyWorld "user-1" samplePayload
    (by decide)

/-- C2 as stated fails on the code: a success status whose body has no
`access_token` still leads to a write marked `connected = true` whose
token member is absent. -/
theorem C2_counterexample :
    missingTokenWorld.tokenResult
        = Except.ok { ok := true, access_token := none,
                      expires_in := some 3600, error_description := none }
      ∧ (GET sampleRequest missingTokenWorld).writes
          = [("user-1",
              { linkedin_token := none,
                linkedin_profile_id := some "ext-123",
                linkedin_connected := true,
                linkedin_token_expires_at := 1700003600000 })] :=
  ⟨rfl, by decide⟩

/-- C3 (amended): on a non-success token response the handler performs no
write and redirects with `error=exchange_failed`, carrying the provider
error description when one is present (a fixed message otherwise). -/
theorem C3_exchange_failed (req : CallbackRequest) (w : World)
    (td : TokenData)
    (herr : jsTruthy req.error = false) (hcode : jsTruthy req.code = true)
    (htok : w.tokenResult = .ok td) (hok : td.ok = false) :
    (GET req w).writes = []
      ∧ (GET req w).redirect
          = req.origin ++ "/#/app/settings?error=exchange_failed&msg=" ++
              encodeURIComponent
                (jsOrDefault td.error_description
                  "LinkedIn token exchange failed") := by
  unfold GET catchRedirect
  simp [herr, hcode, htok, hok]

theorem C3_witness :
    (GET sampleRequest failedExchangeWorld).writes = []
      ∧ (GET sampleRequest failedExchangeWorld).redirect
          = sampleRequest.origin ++
              "/#/app/settings?error=exchange_failed&msg=" ++
              encodeURIComponent
                (jsOrDefault (some "invalid_grant")
                  "LinkedIn token exchange failed") :=
  C3_exchange_failed sampleRequest failedExchangeWorld
    { ok := false, access_token := none, expires_in := none,
      error_description := some "invalid_grant" }
    rfl rfl rfl rfl

/-- C3 as stated fails on the code: a success response missing
`access_token` is not detected — the handler proceeds, writes a record
and redirects with `success=true` instead of `error=exchange_failed`. -/
theorem C3_counterexample :
    (GET sampleRequest missingTokenWorld).writes ≠ []
      ∧ (GET sampleRequest missingTokenWorld).redirect
          = "http://localhost:3000/#/app/settings?success=true" := by
  decide

/-- C4 (amended): when the token exchange succeeds but the profile
response body is malformed (its parse throws), the handler performs no
write and redirects with `error=exchange_failed`. -/
theorem C4_profile_malformed (req : CallbackRequest) (w : World)
    (td : TokenData) (e : String)
    (herr : jsTruthy req.error = false) (hcode : jsTruthy req.code = true)
    (htok : w.tokenResult = .ok td) (hok : td.ok = true)
    (hprof : w.profileResult = .error e) :
    (GET req w).writes = []
      ∧ (GET req w).redirect
          = req.origin ++ "/#/app/settings?error=exchange_failed&msg=" ++
              encodeURIComponent e := by
  unfold GET catchRedirect
  simp [herr, hcode, htok, hok, hprof]

theorem C4_witness :
    (GET sampleRequest malformedProfileWorld).writes = []
      ∧ (GET sampleRequest malformedProfileWorld).redirect
          = sampleRequest.origin ++
              "/#/app/settings?error=exchange_failed&msg=" ++
              encodeURIComponent "Unexpected end of JSON input" :=
  C4_profile_malformed sampleRequest malformedProfileWorld
    { ok := true, access_token := some "T", expires_in := some 3600,
      error_description := none }
    "Unexpected end of JSON input" rfl rfl rfl rfl rfl

/-- C4 as stated fails on the code: a parseable profile response missing
`sub` is not detected — the handler persists a record whose profile id is
absent and redirects with `success=true`. -/
theorem C4_counterexample :
    missingSubWorld.profileResult = Except.ok { sub := none }
      ∧ (GET sampleRequest missingSubWorld).writes
          = [("user-1",
              { linkedin_token := some "T",
                linkedin_profile_id := none,
                linkedin_connected := true,
                linkedin_token_expires_at := 1700003600000 })]
      ∧ (GET sampleRequest missingSubWorld).redirect
          = "http://localhost:3000/#/app/settings?success=true" :=
  ⟨rfl, by decide, by decide⟩

/-- C5: when the callback query carries `error=access_denied`, the handler
immediately redirects with `error=access_denied` and the provider
description, makes no token-endpoint call and no write. -/
theorem C5_provider_denied (req : CallbackRequest) (w : World)
    (h : req.error = some "access_denied") :
    (GET req w).redirect
        = req.origin ++ "/#/app/settings?error=" ++ "access_denied" ++
            "&msg=" ++ jsTemplate req.error_description
      ∧ (GET req w).tokenCalls = []
      ∧ (GET req w).writes = [] := by
  unfold GET
  rw [h]
  simp [jsTruthy]

theorem C5_witness :
    (GET deniedRequest happyWorld).redirect
        = deniedRequest.origin ++ "/#/app/settings?error=" ++
            "access_denied" ++ "&msg=" ++
            jsTemplate deniedRequest.error_description
      ∧ (GET deniedRequest happyWorld).tokenCalls = []
      ∧ (GET deniedRequest happyWorld).writes = [] :=
  C5_provider_denied deniedRequest happyWorld rfl

/-- C6: when the token exchange and the profile fetch succeed but no
session user resolves, the handler writes nothing, logs exactly the
no-session warning, and still redirects with `success=true`. -/
theorem C6_no_user_still_success (req : CallbackRequest) (w : World)
    (td : TokenData) (pd : ProfileData)
    (herr : jsTruthy req.error = false) (hcode : jsTruthy req.code = true)
    (htok : w.tokenResult = .ok td) (hok : td.ok = true)
    (hprof : w.profileResult = .ok pd)
    (huser : w.currentUser = .ok none) :
    (GET req w).writes = []
      ∧ (GET req w).warnings = [noSessionWarning]
      ∧ (GET req w).redirect
          = req.origin ++ "/#/app/settings?success=true" := by
  unfold GET
  simp [herr, hcode, htok, hok, hprof, huser]

theorem C6_witness :
    (GET sampleRequest noUserWorld).writes = []
      ∧ (GET sampleRequest noUserWorld).warnings = [noSessionWarning]
      ∧ (GET sampleRequest noUserWorld).redirect
          = sampleRequest.origin ++ "/#/app/settings?success=true" :=
  C6_no_user_still_success sampleRequest noUserWorld
    { ok := true, access_token := some "T", expires_in := some 3600,
      error_description := none }
    { sub := some "ext-123" } rfl rfl rfl rfl rfl rfl

/-- C8 (amended): every token-exchange request carries
`redirect_uri = origin + "/api/linkedin/callback"`, rebuilt from the
origin of the incoming callback request; it coincides with the registered
`LINKEDIN_CONFIG.redirectUri` exactly when that origin is
`http://localhost:3000`. -/
theorem C8_redirect_uri_from_origin (req : CallbackRequest) (w : World)
    (tr : TokenRequest) (hmem : tr ∈ (GET req w).tokenCalls) :
    tr.redirect_uri = req.origin ++ "/api/linkedin/callback"
      ∧ (tr.redirect_uri = LINKEDIN_CONFIG.redirectUri
          ↔ req.origin = "http://localhost:3000") := by
  have h := GET_tokenCalls_inversion req w tr hmem
  refine ⟨h, ?_, ?_⟩
  · intro h2
    rw [h] at h2
    rw [show LINKEDIN_CONFIG.redirectUri
        = "http://localhost:3000" ++ "/api/linkedin/callback" from by decide]
      at h2
    exact string_append_right_cancel _ _ _ h2
  · intro h2
    rw [h, h2]
    decide

theorem C8_witness :
    (TokenRequest.mk "authorization_code" "authcode123" "86j7ddjv9w7b8m"
          "s3cr3t" "http://localhost:3000/api/linkedin/callback").redirect_uri
        = sampleRequest.origin ++ "/api/linkedin/callback"
      ∧ ((TokenRequest.mk "authorization_code" "authcode123" "86j7ddjv9w7b8m"
            "s3cr3t"
            "http://localhost:3000/api/linkedin/callback").redirect_uri
            = LINKEDIN_CONFIG.redirectUri
          ↔ sampleRequest.origin = "http://localhost:3000") :=
  C8_redirect_uri_from_origin sampleRequest happyWorld
    (TokenRequest.mk "authorization_code" "authcode123" "86j7ddjv9w7b8m"
      "s3cr3t" "http://localhost:3000/api/linkedin/callback")
    (by decide)

/-- C8 as stated fails on the code: a callback arriving at another origin
sends a `redirect_uri` differing from `LINKEDIN_CONFIG.redirectUri`. -/
theorem C8_counterexample :
    (GET foreignOriginRequest happyWorld).tokenCalls
        = [TokenRequest.mk "authorization_code" "authcode123"
            "86j7ddjv9w7b8m" "s3cr3t"
            "https://example.com/api/linkedin/callback"]
      ∧ "https://example.com/api/linkedin/callback"
          ≠ LINKEDIN_CONFIG.redirectUri := by
  decide

/-- C10: any write the handler performs targets the resolved session
user; applied to any table state, it preserves the row count, touches only
rows whose `user_id` equals that user, and even on those rows preserves
`user_id` and every non-linkedin column. -/
theorem C10_write_frame (req : CallbackRequest) (w : World)
    (uid : String) (p : UpdatePayload) {α : Type}
    (tbl : List (ProfileRow α))
    (hmem : (uid, p) ∈ (GET req w).writes) :
    w.currentUser = .ok (some uid)
      ∧ (applyProfileUpdate tbl uid p).length = tbl.length
      ∧ List.Forall₂ (fun r r' : ProfileRow α =>
            r'.user_id = r.user_id ∧ r'.otherColumns = r.otherColumns
              ∧ (r.user_id ≠ uid → r' = r))
          tbl (applyProfileUpdate tbl uid p) :=
  ⟨(GET_writes_inversion req w uid p hmem).1,
   by simp [applyProfileUpdate],
   applyProfileUpdate_frame tbl uid p⟩

theorem C10_witness :
    happyWorld.currentUser = .ok (some "user-1")
      ∧ (applyProfileUpdate sampleTable "user-1" samplePayload).length
          = sampleTable.length
      ∧ List.Forall₂ (fun r r' : ProfileRow String =>
            r'.user_id = r.user_id ∧ r'.otherColumns = r.otherColumns
              ∧ (r.user_id ≠ "user-1" → r' = r))
          sampleTable
          (applyProfileUpdate sampleTable "user-1" samplePayload) :=
  C10_write_frame sampleRequest happyWorld "user-1" samplePayload
    sampleTable (by decide)

/-! ## Round-trip lemmas for the state encoding -/

theorem b64v_b64c : ∀ n < 64, b64v (b64c n) = some n := by decide

theorem b64c_ne_pad : ∀ n < 64, b64c n ≠ '=' := by decide

theorem decodeB64_encodeB64 :
    ∀ (l : List Nat), (∀ b ∈ l, b < 256) →
      decodeB64 (encodeB64 l) = some l
  | [], _ => rfl
  | [a], h => by
      have ha : a < 256 := h a (by simp)
      simp [encodeB64, decodeB64, b64v_b64c (a / 4) (by omega),
        b64v_b64c (a % 4 * 16) (by omega)]
      omega
  | [a, b], h => by
      have ha : a < 256 := h a (by simp)
      have hb : b < 256 := h b (by simp)
      simp [encodeB64, decodeB64, b64v_b64c (a / 4) (by omega),
        b64v_b64c (a % 4 * 16 + b / 16) (by omega),
        b64v_b64c (b % 16 * 4) (by omega),
        b64c_ne_pad (b % 16 * 4) (by omega)]
      omega
  | a :: b :: c :: rest, h => by
      have ha : a < 256 := h a (by simp)
      have hb : b < 256 := h b (by simp)
      have hc : c < 256 := h c (by simp)
      have ih := decodeB64_encodeB64 rest
        (fun x hx => h x (by simp [hx]))
      simp [encodeB64, decodeB64, b64v_b64c (a / 4) (by omega),
        b64v_b64c (a % 4 * 16 + b / 16) (by omega),
        b64v_b64c (b % 16 * 4 + c / 64) (by omega),
        b64v_b64c (c % 64) (by omega),
        b64c_ne_pad (b % 16 * 4 + c / 64) (by omega),
        b64c_ne_pad (c % 64) (by omega), ih]
      omega

theorem atob_btoa (s : String) (h : ∀ c ∈ s.data, c.toNat ≤ 0xFF) :
    btoa s = .ok ⟨encodeB64 (s.data.map Char.toNat)⟩
      ∧ atob ⟨encodeB64 (s.data.map Char.toNat)⟩ = some s := by
  constructor
  · unfold btoa
    rw [if_pos]
    exact List.all_eq_true.mpr fun c hc => decide_eq_true (h c hc)
  · have hl : (s.data.map Char.toNat).map Char.ofNat = s.data := by
      rw [List.map_map]
      simp [Function.comp_def, Char.ofNat_toNat]
    unfold atob
    rw [show (String.mk (encodeB64 (s.data.map Char.toNat))).data
        = encodeB64 (s.data.map Char.toNat) from rfl]
    rw [decodeB64_encodeB64 (s.data.map Char.toNat)
      (by intro b hb
          obtain ⟨c, hc, rfl⟩ := List.mem_map.mp hb
          have := h c hc; omega)]
    exact congrArg (fun l => some (String.mk l)) hl

theorem char_toNat_lt (c : Char) : c.toNat < 1114112 := by
  have h := c.valid
  simp [Nat.isValidChar, UInt32.isValidChar] at h
  unfold Char.toNat
  omega

theorem utf8Bytes_lt (c : Char) : ∀ b ∈ utf8Bytes c, b < 256 := by
  have h := char_toNat_lt c
  intro b hb
  unfold utf8Bytes at hb
  by_cases h1 : c.toNat < 128
  · simp [h1] at hb; omega
  · by_cases h2 : c.toNat < 2048
    · simp [h1, h2] at hb
      rcases hb with rfl | rfl <;> omega
    · by_cases h3 : c.toNat < 65536
      · simp [h1, h2, h3] at hb
        rcases hb with rfl | rfl | rfl <;> omega
      · simp [h1, h2, h3] at hb
        rcases hb with rfl | rfl | rfl | rfl <;> omega

theorem hexUpper_ne_amp : ∀ m < 16, hexDigitUpper m ≠ '&' := by decide

theorem formEncodeChar_ne_amp (c : Char) :
    ∀ x ∈ formEncodeChar c, x ≠ '&' := by
  intro x hx
  unfold formEncodeChar at hx
  by_cases hsp : c = ' '
  · rw [if_pos hsp] at hx; simp at hx; subst hx; decide
  · rw [if_neg hsp] at hx
    by_cases hun : formUnreserved c = true
    · rw [if_pos hun] at hx; simp at hx; subst hx
      intro hc; subst hc
      exact absurd hun (by decide)
    · rw [if_neg hun] at hx
      obtain ⟨b, hb, hxb⟩ := List.mem_flatMap.mp hx
      have hblt : b < 256 := utf8Bytes_lt c b hb
      simp [percentByte] at hxb
      rcases hxb with rfl | rfl | rfl
      · decide
      · exact hexUpper_ne_amp (b / 16) (by omega)
      · exact hexUpper_ne_amp (b % 16) (by omega)

theorem formEncode_ne_amp (s : String) :
    ∀ x ∈ (formEncode s).data, x ≠ '&' := by
  intro x hx
  obtain ⟨c, _, hxc⟩ := List.mem_flatMap.mp hx
  exact formEncodeChar_ne_amp c x hxc

theorem b64c_class : ∀ n < 64,
    (formUnreserved (b64c n) = true ∧ b64c n ≠ '+' ∧ b64c n ≠ '%'
        ∧ b64c n ≠ ' ')
      ∨ b64c n = '+' ∨ b64c n = '/' := by decide

theorem formDecode_step (c : Char)
    (hc : (∃ n, n < 64 ∧ c = b64c n) ∨ c = '=') (l' : List Char) :
    formDecodeList (formEncodeChar c ++ l')
      = (formDecodeList l').map (c :: ·) := by
  rcases hc with ⟨n, hn, rfl⟩ | rfl
  · rcases b64c_class n hn with ⟨h1, h2, h3, h4⟩ | h | h
    · unfold formEncodeChar
      rw [if_neg h4, if_pos h1, List.singleton_append,
        formDecodeList.eq_def]
      simp only []
      rw [if_neg h2, if_neg h3]
    · rw [h, show formEncodeChar '+' = ['%', '2', 'B'] from by decide]
      show formDecodeList ('%' :: '2' :: 'B' :: l') = _
      rw [formDecodeList]
      simp [hexVal]
    · rw [h, show formEncodeChar '/' = ['%', '2', 'F'] from by decide]
      show formDecodeList ('%' :: '2' :: 'F' :: l') = _
      rw [formDecodeList]
      simp [hexVal]
  · rw [show formEncodeChar '=' = ['%', '3', 'D'] from by decide]
    show formDecodeList ('%' :: '3' :: 'D' :: l') = _
    rw [formDecodeList]
    simp [hexVal]

theorem formDecode_formEncode_b64 (l : List Char)
    (h : ∀ c ∈ l, (∃ n, n < 64 ∧ c = b64c n) ∨ c = '=') :
    formDecodeList (l.flatMap formEncodeChar) = some l := by
  induction l with
  | nil => rfl
  | cons c rest ih =>
      rw [List.flatMap_cons, formDecode_step c (h c (by simp)),
        ih fun x hx => h x (by simp [hx])]
      rfl

theorem encodeB64_chars :
    ∀ (l : List Nat), (∀ b ∈ l, b < 256) →
      ∀ c ∈ encodeB64 l, (∃ n, n < 64 ∧ c = b64c n) ∨ c = '='
  | [], _ => by simp [encodeB64]
  | [a], h => by
      have ha : a < 256 := h a (by simp)
      intro c hc
      simp [encodeB64] at hc
      rcases hc with rfl | rfl | rfl
      · exact .inl ⟨a / 4, by omega, rfl⟩
      · exact .inl ⟨a % 4 * 16, by omega, rfl⟩
      · exact .inr rfl
  | [a, b], h => by
      have ha : a < 256 := h a (by simp)
      have hb : b < 256 := h b (by simp)
      intro c hc
      simp [encodeB64] at hc
      rcases hc with rfl | rfl | rfl | rfl
      · exact .inl ⟨a / 4, by omega, rfl⟩
      · exact .inl ⟨a % 4 * 16 + b / 16, by omega, rfl⟩
      · exact .inl ⟨b % 16 * 4, by omega, rfl⟩
      · exact .inr rfl
  | a :: b :: c :: rest, h => by
      have ha : a < 256 := h a (by simp)
      have hb : b < 256 := h b (by simp)
      have hc : c < 256 := h c (by simp)
      have ih := encodeB64_chars rest fun x hx => h x (by simp [hx])
      intro x hx
      simp only [encodeB64, List.mem_cons] at hx
      rcases hx with rfl | rfl | rfl | rfl | hx
      · exact .inl ⟨a / 4, by omega, rfl⟩
      · exact .inl ⟨a % 4 * 16 + b / 16, by omega, rfl⟩
      · exact .inl ⟨b % 16 * 4 + c / 64, by omega, rfl⟩
      · exact .inl ⟨c % 64, by omega, rfl⟩
      · exact ih x hx

theorem data_append (a b : String) : (a ++ b).data = a.data ++ b.data := by
  rw [String.congr_append]

theorem mk_data (l : List Char) : (String.mk l).data = l := rfl

theorem expectLiteral_compose (p q l : List Char) :
    expectLiteral (p ++ q) (p ++ l) = expectLiteral q l := by
  induction p with
  | nil => rfl
  | cons c p' ih => simp [expectLiteral, ih]

theorem expectLiteral_self (p l : List Char) :
    expectLiteral p (p ++ l) = some l := by
  induction p with
  | nil => rfl
  | cons c p' ih => simp [expectLiteral, ih]

theorem parseJsonString_safe (s : List Char)
    (h : ∀ c ∈ s, ¬ c = '"' ∧ ¬ c = '\\') (rest : List Char) :
    parseJsonString (s ++ '"' :: rest) = some (s, rest) := by
  induction s with
  | nil =>
      rw [List.nil_append, parseJsonString.eq_def]
      simp
  | cons c s' ih =>
      obtain ⟨h1, h2⟩ := h c (by simp)
      rw [List.cons_append, parseJsonString.eq_def]
      simp only []
      rw [if_neg h1, if_neg h2, ih fun x hx => h x (by simp [hx])]

theorem jsonEscape_safe (s : List Char) (h : ∀ c ∈ s, charSafe c) :
    s.flatMap jsonEscapeChar = s := by
  induction s with
  | nil => rfl
  | cons c s' ih =>
      obtain ⟨hge, hle, hq, hb⟩ := h c (by simp)
      have hesc : jsonEscapeChar c = [c] := by
        unfold jsonEscapeChar
        rw [if_neg hq, if_neg hb, if_neg (by omega)]
      rw [List.flatMap_cons, hesc, List.singleton_append,
        ih fun x hx => h x (by simp [hx])]

theorem statePayloadJson_data (u n : String)
    (hu : ∀ c ∈ u.data, charSafe c) (hn : ∀ c ∈ n.data, charSafe c) :
    (statePayloadJson u n).data
      = "\x7b\"userId\":\"".data ++ (u.data ++ ('"' ::
          (",\"nonce\":\"".data ++ (n.data ++ ('"' :: ['\x7d']))))) := by
  unfold statePayloadJson jsonQuote
  simp [data_append, mk_data, jsonEscape_safe u.data hu,
    jsonEscape_safe n.data hn,
    show ("\x7d" : String).data = ['\x7d'] from by decide,
    List.append_assoc]

theorem expectLiteral_quote (A REST : List Char) :
    expectLiteral (A ++ ['"']) (A ++ ('"' :: REST)) = some REST := by
  rw [show ('"' :: REST) = ['"'] ++ REST from rfl, expectLiteral_compose]
  exact expectLiteral_self ['"'] REST

theorem parseStatePayload_aux (u n : List Char)
    (hu : ∀ c ∈ u, ¬ c = '"' ∧ ¬ c = '\\')
    (hn : ∀ c ∈ n, ¬ c = '"' ∧ ¬ c = '\\') :
    parseStatePayload
      ("\x7b\"userId\":\"".data ++ (u ++ ('"' ::
        (",\"nonce\":\"".data ++ (n ++ ('"' :: ['\x7d']))))))
      = some (⟨u⟩, ⟨n⟩) := by
  unfold parseStatePayload
  simp only [expectLiteral_self, parseJsonString_safe u hu,
    parseJsonString_safe n hn]
  simp

theorem splitOnChar_ne_nil (sep : Char) (l : List Char) :
    splitOnChar sep l ≠ [] := by
  induction l with
  | nil => simp [splitOnChar]
  | cons c rest ih =>
      rw [splitOnChar.eq_def]
      simp only []
      cases hr : splitOnChar sep rest with
      | nil => exact absurd hr ih
      | cons h t =>
          by_cases hc : c = sep <;> simp [hc]

theorem splitOnChar_cons_sep (sep : Char) (l : List Char) :
    splitOnChar sep (sep :: l) = [] :: splitOnChar sep l := by
  cases hr : splitOnChar sep l with
  | nil => exact absurd hr (splitOnChar_ne_nil sep l)
  | cons h t => simp [splitOnChar, hr]

theorem splitOnChar_no_sep (sep : Char) (l : List Char) (h : sep ∉ l) :
    splitOnChar sep l = [l] := by
  induction l with
  | nil => rfl
  | cons c rest ih =>
      have hc : ¬ c = sep := fun e => h (by simp [e])
      have ih2 := ih fun e => h (by simp [e])
      simp [splitOnChar, ih2, hc]

theorem splitOnChar_append (sep : Char) (a l : List Char) (h : sep ∉ a) :
    splitOnChar sep (a ++ sep :: l) = a :: splitOnChar sep l := by
  induction a with
  | nil => simp [splitOnChar_cons_sep]
  | cons c a' ih =>
      have hc : ¬ c = sep := fun e => h (by simp [e])
      have ih2 := ih fun e => h (by simp [e])
      rw [List.cons_append, splitOnChar.eq_def]
      simp only []
      rw [ih2]
      simp [hc]

theorem splitOnChar_joinSep (sep : Char) :
    ∀ (parts : List (List Char)), parts ≠ [] →
      (∀ p ∈ parts, sep ∉ p) →
      splitOnChar sep (joinSep sep parts) = parts
  | [], h, _ => absurd rfl h
  | [p], _, hs => by
      rw [show joinSep sep [p] = p from rfl]
      exact splitOnChar_no_sep sep p (hs p (by simp))
  | p :: q :: rest, _, hs => by
      rw [show joinSep sep (p :: q :: rest)
          = p ++ sep :: joinSep sep (q :: rest) from rfl]
      rw [splitOnChar_append sep p _ (hs p (by simp))]
      rw [splitOnChar_joinSep sep (q :: rest) (by simp)
        fun x hx => hs x (by simp at hx ⊢; tauto)]

theorem afterChar_append (c : Char) (pre l : List Char) (h : c ∉ pre) :
    afterChar c (pre ++ c :: l) = some l := by
  induction pre with
  | nil => simp [afterChar]
  | cons x p' ih =>
      have hx : ¬ x = c := fun e => h (by simp [e])
      have ih2 := ih fun e => h (by simp [e])
      simp [afterChar, hx, ih2]

theorem splitFirstChar_append (sep : Char) (k v : List Char)
    (h : sep ∉ k) :
    splitFirstChar sep (k ++ sep :: v) = (k, v) := by
  induction k with
  | nil => simp [splitFirstChar]
  | cons c k' ih =>
      have hc : ¬ c = sep := fun e => h (by simp [e])
      have ih2 := ih fun e => h (by simp [e])
      simp [splitFirstChar, hc, ih2]

theorem getParam_state (st : String) :
    getParam ("https://www.linkedin.com/oauth/v2/authorization?" ++
        String.mk (serializeQuery
          [("response_type", "code"),
           ("client_id", LINKEDIN_CONFIG.clientId),
           ("redirect_uri", LINKEDIN_CONFIG.redirectUri),
           ("state", st),
           ("scope", String.intercalate " " LINKEDIN_CONFIG.scopes)]))
        "state"
      = some ((formEncode st).data) := by
  have hs4 : '&' ∉ (formEncode "state").data ++ '=' :: (formEncode st).data := by
    intro hm
    rcases List.mem_append.mp hm with h | h
    · revert h; decide
    · rcases List.mem_cons.mp h with h | h
      · exact absurd h (by decide)
      · exact formEncode_ne_amp st '&' h rfl
  have hsplit : splitOnChar '&' (serializeQuery
      [("response_type", "code"),
       ("client_id", LINKEDIN_CONFIG.clientId),
       ("redirect_uri", LINKEDIN_CONFIG.redirectUri),
       ("state", st),
       ("scope", String.intercalate " " LINKEDIN_CONFIG.scopes)])
      = [(formEncode "response_type").data ++ '=' :: (formEncode "code").data,
         (formEncode "client_id").data
           ++ '=' :: (formEncode LINKEDIN_CONFIG.clientId).data,
         (formEncode "redirect_uri").data
           ++ '=' :: (formEncode LINKEDIN_CONFIG.redirectUri).data,
         (formEncode "state").data ++ '=' :: (formEncode st).data,
         (formEncode "scope").data ++ '=' ::
           (formEncode (String.intercalate " " LINKEDIN_CONFIG.scopes)).data] := by
    rw [show serializeQuery
        [("response_type", "code"),
         ("client_id", LINKEDIN_CONFIG.clientId),
         ("redirect_uri", LINKEDIN_CONFIG.redirectUri),
         ("state", st),
         ("scope", String.intercalate " " LINKEDIN_CONFIG.scopes)]
        = joinSep '&'
          [(formEncode "response_type").data
             ++ '=' :: (formEncode "code").data,
           (formEncode "client_id").data
             ++ '=' :: (formEncode LINKEDIN_CONFIG.clientId).data,
           (formEncode "redirect_uri").data
             ++ '=' :: (formEncode LINKEDIN_CONFIG.redirectUri).data,
           (formEncode "state").data ++ '=' :: (formEncode st).data,
           (formEncode "scope").data ++ '=' ::
             (formEncode (String.intercalate " " LINKEDIN_CONFIG.scopes)).data]
        from rfl]
    refine splitOnChar_joinSep '&' _ (by simp) ?_
    intro p hp
    simp only [List.mem_cons, List.not_mem_nil, or_false] at hp
    rcases hp with rfl | rfl | rfl | rfl | rfl
    · decide
    · decide
    · decide
    · exact hs4
    · decide
  have hlookup4 : lookupParam "state"
      ((formEncode "state").data ++ '=' :: (formEncode st).data)
      = some ((formEncode st).data) := by
    unfold lookupParam
    rw [show (formEncode "state").data = "state".data from by decide,
      splitFirstChar_append '=' _ _ (by decide)]
    simp
  unfold getParam
  rw [data_append, mk_data,
    show ("https://www.linkedin.com/oauth/v2/authorization?" : String).data
      = "https://www.linkedin.com/oauth/v2/authorization".data ++ ['?']
      from by decide,
    List.append_assoc, List.singleton_append,
    afterChar_append '?' _ _ (by decide)]
  simp only [hsplit, List.findSome?,
    show lookupParam "state"
      ((formEncode "response_type").data ++ '=' :: (formEncode "code").data)
      = none from by decide,
    show lookupParam "state"
      ((formEncode "client_id").data
        ++ '=' :: (formEncode LINKEDIN_CONFIG.clientId).data)
      = none from by decide,
    show lookupParam "state"
      ((formEncode "redirect_uri").data
        ++ '=' :: (formEncode LINKEDIN_CONFIG.redirectUri).data)
      = none from by decide,
    hlookup4]

theorem statePayloadJson_le255 (u n : String)
    (hu : ∀ c ∈ u.data, charSafe c) (hn : ∀ c ∈ n.data, charSafe c) :
    ∀ c ∈ (statePayloadJson u n).data, c.toNat ≤ 0xFF := by
  intro c hc
  rw [statePayloadJson_data u n hu hn] at hc
  simp only [List.mem_append, List.mem_cons, List.not_mem_nil, or_false]
    at hc
  rcases hc with h | h | rfl | h | h | rfl | rfl
  · rcases h with rfl | rfl | rfl | rfl | rfl | rfl | rfl | rfl | rfl
      | rfl | rfl <;> decide
  · exact (hu c h).2.1
  · decide
  · rcases h with rfl | rfl | rfl | rfl | rfl | rfl | rfl | rfl | rfl
      | rfl <;> decide
  · exact (hn c h).2.1
  · decide
  · decide

theorem decodeStateParam_authUrl (st payload : String)
    (hchars : ∀ c ∈ st.data, (∃ n, n < 64 ∧ c = b64c n) ∨ c = '=')
    (ha : atob st = some payload) (u nonce : String)
    (hparse : parseStatePayload payload.data = some (u, nonce)) :
    decodeStateParam ("https://www.linkedin.com/oauth/v2/authorization?" ++
        String.mk (serializeQuery
          [("response_type", "code"),
           ("client_id", LINKEDIN_CONFIG.clientId),
           ("redirect_uri", LINKEDIN_CONFIG.redirectUri),
           ("state", st),
           ("scope", String.intercalate " " LINKEDIN_CONFIG.scopes)]))
      = some (u, nonce) := by
  unfold decodeStateParam
  rw [getParam_state st]
  simp only []
  rw [show (formEncode st).data = st.data.flatMap formEncodeChar from rfl,
    formDecode_formEncode_b64 st.data hchars]
  simp only []
  rw [show (String.mk st.data) = st from rfl, ha]
  simp only []
  rw [hparse]

/-- Full round trip of the builder: for safe inputs the builder succeeds
and the `state` parameter of the produced URL decodes back to exactly the
initiating `userId` and the nonce computed from the random draw. -/
theorem authUrl_decode (userId randStr : String)
    (hu : ∀ c ∈ userId.data, charSafe c)
    (hr : ∀ c ∈ randStr.data, charSafe c) :
    ∃ url, generateLinkedInAuthUrl userId randStr = Except.ok url
      ∧ decodeStateParam url
          = some (userId, jsSubstring randStr 2 15) := by
  have hnsafe : ∀ c ∈ (jsSubstring randStr 2 15).data, charSafe c := by
    intro c hc
    exact hr c (List.drop_subset _ _ (List.take_subset _ _ hc))
  have hpl := statePayloadJson_le255 userId (jsSubstring randStr 2 15)
    hu hnsafe
  obtain ⟨hb, ha⟩ :=
    atob_btoa (statePayloadJson userId (jsSubstring randStr 2 15)) hpl
  have hchars : ∀ c ∈ (String.mk (encodeB64
      ((statePayloadJson userId (jsSubstring randStr 2 15)).data.map
        Char.toNat))).data,
      (∃ n, n < 64 ∧ c = b64c n) ∨ c = '=' := by
    intro c hc
    refine encodeB64_chars _ ?_ c hc
    intro b hb2
    obtain ⟨x, hx, rfl⟩ := List.mem_map.mp hb2
    have := hpl x hx
    omega
  have hparse : parseStatePayload
      (statePayloadJson userId (jsSubstring randStr 2 15)).data
      = some (userId, jsSubstring randStr 2 15) := by
    rw [statePayloadJson_data userId (jsSubstring randStr 2 15) hu hnsafe]
    exact parseStatePayload_aux userId.data (jsSubstring randStr 2 15).data
      (fun c hc => ⟨(hu c hc).2.2.1, (hu c hc).2.2.2⟩)
      (fun c hc => ⟨(hnsafe c hc).2.2.1, (hnsafe c hc).2.2.2⟩)
  refine ⟨"https://www.linkedin.com/oauth/v2/authorization?" ++
      String.mk (serializeQuery
        [("response_type", "code"),
         ("client_id", LINKEDIN_CONFIG.clientId),
         ("redirect_uri", LINKEDIN_CONFIG.redirectUri),
         ("state", ⟨encodeB64 ((statePayloadJson userId
             (jsSubstring randStr 2 15)).data.map Char.toNat)⟩),
         ("scope", String.intercalate " " LINKEDIN_CONFIG.scopes)]),
      ?_, ?_⟩
  · unfold generateLinkedInAuthUrl
    rw [hb]
  · exact decodeStateParam_authUrl _ _ hchars ha _ _ hparse

theorem jsSubstring_ne_empty (s : String) (h : 3 ≤ s.length) :
    jsSubstring s 2 15 ≠ "" := by
  unfold jsSubstring
  intro he
  have hd := congrArg (fun t => t.data.length) he
  simp only [mk_data] at hd
  rw [List.length_take, List.length_drop] at hd
  have h2 : 3 ≤ s.data.length := h
  simp only [show ("" : String).data = ([] : List Char) from rfl,
    List.length_nil] at hd
  omega

/-- C7 (amended): for every user id and random draw over the safe
character set, the builder succeeds and the `state` parameter of the URL
decodes back to exactly that user id and the nonce
`randStr.substring(2, 15)`; the nonce is non-empty whenever the draw
string has at least 3 characters (true of `toString(36)` of every nonzero
draw, but not of the draw `0`); and two calls with the same user id
produce different URLs whenever their nonces differ. -/
theorem C7_state_roundtrip (userId randStr : String)
    (hu : ∀ c ∈ userId.data, charSafe c)
    (hr : ∀ c ∈ randStr.data, charSafe c) :
    (∃ url, generateLinkedInAuthUrl userId randStr = Except.ok url
        ∧ decodeStateParam url = some (userId, jsSubstring randStr 2 15))
      ∧ (3 ≤ randStr.length → jsSubstring randStr 2 15 ≠ "")
      ∧ ∀ randStr2 : String, (∀ c ∈ randStr2.data, charSafe c) →
          jsSubstring randStr 2 15 ≠ jsSubstring randStr2 2 15 →
          generateLinkedInAuthUrl userId randStr
            ≠ generateLinkedInAuthUrl userId randStr2 := by
  refine ⟨authUrl_decode userId randStr hu hr,
    jsSubstring_ne_empty randStr, ?_⟩
  intro r2 h2 hne heq
  obtain ⟨u1, e1, d1⟩ := authUrl_decode userId randStr hu hr
  obtain ⟨u2, e2, d2⟩ := authUrl_decode userId r2 hu h2
  rw [e1, e2] at heq
  injection heq with heq2
  rw [heq2] at d1
  rw [d1] at d2
  injection d2 with d3
  exact hne (congrArg Prod.snd d3)

theorem C7_witness :
    (∃ url, generateLinkedInAuthUrl "user-42" "0.k3j9xq2mwl5d"
          = Except.ok url
        ∧ decodeStateParam url
            = some ("user-42", jsSubstring "0.k3j9xq2mwl5d" 2 15))
      ∧ (3 ≤ ("0.k3j9xq2mwl5d" : String).length →
          jsSubstring "0.k3j9xq2mwl5d" 2 15 ≠ "")
      ∧ ∀ randStr2 : String, (∀ c ∈ randStr2.data, charSafe c) →
          jsSubstring "0.k3j9xq2mwl5d" 2 15 ≠ jsSubstring randStr2 2 15 →
          generateLinkedInAuthUrl "user-42" "0.k3j9xq2mwl5d"
            ≠ generateLinkedInAuthUrl "user-42" randStr2 :=
  C7_state_roundtrip "user-42" "0.k3j9xq2mwl5d" (by decide) (by decide)

set_option maxRecDepth 8000 in
/-- C7 as stated fails on the code: when `Math.random()` draws exactly
`0`, `(0).toString(36)` is `"0"` and the nonce
`"0".substring(2, 15)` is empty — the state of the produced URL decodes
to an empty nonce, contradicting the claimed non-empty nonce (and two
calls whose draws coincide produce identical state values). -/
theorem C7_counterexample :
    generateLinkedInAuthUrl "u1" "0"
        = Except.ok "https://www.linkedin.com/oauth/v2/authorization?response_type=code&client_id=86j7ddjv9w7b8m&redirect_uri=http%3A%2F%2Flocalhost%3A3000%2Fapi%2Flinkedin%2Fcallback&state=eyJ1c2VySWQiOiJ1MSIsIm5vbmNlIjoiIn0%3D&scope=openid+profile+email+w_member_social"
      ∧ decodeStateParam "https://www.linkedin.com/oauth/v2/authorization?response_type=code&client_id=86j7ddjv9w7b8m&redirect_uri=http%3A%2F%2Flocalhost%3A3000%2Fapi%2Flinkedin%2Fcallback&state=eyJ1c2VySWQiOiJ1MSIsIm5vbmNlIjoiIn0%3D&scope=openid+profile+email+w_member_social"
          = some ("u1", "") := by
  constructor
  · rfl
  · decide

end Autolink
